import Mathlib

/-!
Verification model of the vswr cache + revalidation + mutation engine.

The definitions below are a shallow embedding of the TypeScript source:
  * `src/cache.ts`      — CacheItem, DefaultCache (get/set/has/remove,
    subscribe, broadcast, and the private resolve continuation),
  * `src/api/revalidate.ts` — revalidate,
  * `src/api/mutate.ts` (bundled after useSWR.ts) — mutate,
  * `src/helpers.ts`    — requestData.

JavaScript features are modelled explicitly:
  * object identity of CacheItem instances: a heap maps item ids to the
    current fields of each object, and the store maps keys to item ids;
  * `Promise.resolve(x).then(cb)`: when `x` is a plain value the callback
    is pushed on the microtask queue (`tasks`), and when `x` is a pending
    promise the callback is registered as a continuation (`conts`) that a
    later settlement moves onto the microtask queue; `drain` runs the
    queued microtasks in order, as the event loop does after the current
    synchronous execution returns;
  * `undefined` and `null` are both modelled as `Option.none`;
  * the EventTarget module is imported by cache.ts but absent from the
    sources, so per-key dispatch is modelled from the spec: a dispatch
    appends to the `dispatches` log and is delivered synchronously to every
    currently subscribed handler (the `received` log);
  * the fetcher is the environment: `requestDataM` allocates the promise
    that `requestData` returns and counts the fetcher invocation, and
    `settleFetchOk` / `settleFetchErr` model the fetcher resolving or
    rejecting (rejection dispatches the reason on the error channel and
    resolves the requestData promise to undefined, as helpers.ts does).
-/

namespace VSWR

/-- Item identifiers: the JavaScript object identity of a CacheItem. -/
abbrev ItemId := Nat

/-- Promise identifiers: names for pending computations. -/
abbrev PromId := Nat

/-- The `data` field of a CacheItem: `data: D | Promise<D>` in cache.ts.
`val none` models the JavaScript values undefined and null. -/
inductive CData (D : Type) where
  | val : Option D → CData D
  | pending : PromId → CData D
deriving DecidableEq

/-- The fields of a CacheItem object: `data` and `expiresAt` (a nullable
timestamp, milliseconds; `none` models null). -/
structure CacheItemObj (D : Type) where
  data : CData D
  expiresAt : Option Nat
deriving DecidableEq

/-- `CacheItem.isResolving`: true when data is (still) a Promise. -/
def isResolvingD {D : Type} : CData D → Bool
  | .val _ => false
  | .pending _ => true

/-- `CacheItem.hasExpired`: `expiresAt === null || expiresAt < new Date()`. -/
def hasExpiredB {D : Type} (now : Nat) (it : CacheItemObj D) : Bool :=
  match it.expiresAt with
  | none => true
  | some t => decide (t < now)

/-- Lookup in an association list (the model of a JavaScript Map). -/
def lookupA {α β : Type} [DecidableEq α] (k : α) : List (α × β) → Option β
  | [] => none
  | p :: t => if p.1 = k then some p.2 else lookupA k t

/-- Remove every binding of a key (a Map holds at most one). -/
def eraseA {α β : Type} [DecidableEq α] (k : α) : List (α × β) → List (α × β)
  | [] => []
  | p :: t => if p.1 = k then eraseA k t else p :: eraseA k t

/-- `Map.set`: replace any prior binding of the key. The binding order is
irrelevant to the model (only lookups and deletions are performed). -/
def insertA {α β : Type} [DecidableEq α] (k : α) (v : β) (l : List (α × β)) :
    List (α × β) :=
  eraseA k l ++ [(k, v)]

/-- The continuations registered on a promise id. -/
def contsFor (pid : PromId) : List (PromId × String × ItemId) → List (PromId × String × ItemId)
  | [] => []
  | c :: t => if c.1 = pid then c :: contsFor pid t else contsFor pid t

/-- The continuations not registered on a promise id. -/
def contsNotFor (pid : PromId) : List (PromId × String × ItemId) → List (PromId × String × ItemId)
  | [] => []
  | c :: t => if c.1 = pid then contsNotFor pid t else c :: contsNotFor pid t

/-- The handlers currently subscribed to a key. -/
def subsOf (k : String) : List (String × Nat) → List Nat
  | [] => []
  | s :: t => if s.1 = k then s.2 :: subsOf k t else subsOf k t

/-- The whole observable state of one engine instance: the cache store and
item heap, the pending promise continuations and the microtask queue, the
subscriber table and the dispatch / delivery / error logs, the fetch
bookkeeping, and a marker that is set only if the fuel of the mutual
mutate / revalidate recursion ever runs out. -/
structure EngineState (D E : Type) where
  store : List (String × ItemId)
  heap : List (ItemId × CacheItemObj D)
  nextItem : ItemId
  nextProm : PromId
  conts : List (PromId × String × ItemId)
  tasks : List (String × ItemId × Option D)
  subs : List (String × Nat)
  dispatches : List (String × Option D)
  received : List (Nat × String × Option D)
  errors : List (String × E)
  fetchKeys : List (PromId × String)
  fetchCount : Nat
  fuelOut : Bool
deriving DecidableEq

/-- An engine with an empty store, no subscribers and empty logs. -/
def emptyState (D E : Type) : EngineState D E :=
  ⟨[], [], 0, 0, [], [], [], [], [], [], [], 0, false⟩

variable {D E : Type}

/-- `DefaultCache.has`. -/
def cacheHas (k : String) (st : EngineState D E) : Bool :=
  (lookupA k st.store).isSome

/-- `DefaultCache.get`, composed with dereferencing the item id: the
CacheItem object currently stored under the key, if any. -/
def cacheGet (k : String) (st : EngineState D E) : Option (CacheItemObj D) :=
  match lookupA k st.store with
  | none => none
  | some i => lookupA i st.heap

/-- `DefaultCache.broadcast`: dispatch a CustomEvent on the key; it is
delivered synchronously to every currently subscribed handler. -/
def cacheBroadcast (k : String) (v : Option D) (st : EngineState D E) :
    EngineState D E :=
  { st with
    dispatches := st.dispatches ++ [(k, v)]
    received := st.received ++ (subsOf k st.subs).map (fun h => (h, k, v)) }

/-- `DefaultCache.subscribe` (addEventListener registers a handler once). -/
def cacheSubscribe (k : String) (h : Nat) (st : EngineState D E) :
    EngineState D E :=
  if (k, h) ∈ st.subs then st else { st with subs := st.subs ++ [(k, h)] }

/-- `DefaultCache.remove`: broadcast an undefined payload first when asked
to, then delete the key (the default options do not broadcast). -/
def cacheRemove (k : String) (bc : Bool) (st : EngineState D E) :
    EngineState D E :=
  let st1 := if bc then cacheBroadcast k none st else st
  { st1 with store := eraseA k st1.store }

/-- Allocate a fresh CacheItem object on the heap (`new CacheItem(...)`). -/
def allocItem (obj : CacheItemObj D) (st : EngineState D E) :
    ItemId × EngineState D E :=
  (st.nextItem,
   { st with
     heap := insertA st.nextItem obj st.heap
     nextItem := st.nextItem + 1 })

/-- `DefaultCache.resolve`: `Promise.resolve(value.data).then(cb)`. For a
plain value the callback is scheduled as a microtask at once; for a pending
promise it is registered as a continuation of that promise. The callback
itself is run by `runTask`. -/
def cacheResolve (k : String) (iid : ItemId) (st : EngineState D E) :
    EngineState D E :=
  match lookupA iid st.heap with
  | none => st
  | some it =>
    match it.data with
    | .val v => { st with tasks := st.tasks ++ [(k, iid, v)] }
    | .pending pid => { st with conts := st.conts ++ [(pid, k, iid)] }

/-- `DefaultCache.set`: store the item under the key, then schedule its
resolution. -/
def cacheSet (k : String) (iid : ItemId) (st : EngineState D E) :
    EngineState D E :=
  cacheResolve k iid { st with store := insertA k iid st.store }

/-- Allocate a fresh CacheItem and `set` it — `cache.set(k, new CacheItem g)`. -/
def setNew (k : String) (obj : CacheItemObj D) (st : EngineState D E) :
    EngineState D E :=
  let a := allocItem obj st
  cacheSet k a.1 a.2

/-- The body of the continuation attached by `DefaultCache.resolve`: when
the settled value is undefined or null, remove the key without
broadcasting; otherwise replace the captured object's data in place and
broadcast the settled value under the key. -/
def runTask (t : String × ItemId × Option D) (st : EngineState D E) :
    EngineState D E :=
  match t.2.2 with
  | none => cacheRemove t.1 false st
  | some d =>
    let st1 :=
      match lookupA t.2.1 st.heap with
      | none => st
      | some it =>
        { st with heap := insertA t.2.1 ⟨.val (some d), it.expiresAt⟩ st.heap }
    cacheBroadcast t.1 (some d) st1

/-- Run a list of queued microtasks in order. -/
def runTasks : List (String × ItemId × Option D) → EngineState D E → EngineState D E
  | [], st => st
  | t :: ts, st => runTasks ts (runTask t st)

/-- Drain the microtask queue, as the event loop does once the current
synchronous execution has returned. -/
def drain (st : EngineState D E) : EngineState D E :=
  runTasks st.tasks { st with tasks := [] }

/-- A promise settles: every continuation registered on it is moved, in
order, onto the microtask queue with the settled value. -/
def settleProm (pid : PromId) (v : Option D) (st : EngineState D E) :
    EngineState D E :=
  { st with
    conts := contsNotFor pid st.conts
    tasks := st.tasks ++ (contsFor pid st.conts).map (fun c => (c.2.1, c.2.2, v)) }

/-- `requestData(key, fetcher)`: invoke the fetcher (counted) and return a
fresh promise that never rejects; the key is remembered so a rejection can
be dispatched on the error channel under it. -/
def requestDataM (k : String) (st : EngineState D E) :
    PromId × EngineState D E :=
  (st.nextProm,
   { st with
     nextProm := st.nextProm + 1
     fetchCount := st.fetchCount + 1
     fetchKeys := insertA st.nextProm k st.fetchKeys })

/-- The fetcher behind a `requestData` promise resolves with a value (which
may itself be undefined / null). -/
def settleFetchOk (pid : PromId) (v : Option D) (st : EngineState D E) :
    EngineState D E :=
  settleProm pid v st

/-- The fetcher behind a `requestData` promise rejects: the catch handler
in `requestData` dispatches the rejection reason on the error channel under
the fetched key and returns undefined, so the promise settles with
undefined. -/
def settleFetchErr (pid : PromId) (e : E) (st : EngineState D E) :
    EngineState D E :=
  let st1 :=
    match lookupA pid st.fetchKeys with
    | none => st
    | some k => { st with errors := st.errors ++ [(k, e)] }
  settleProm pid none st1

/-- Partial revalidate options, as a call site supplies them; absent fields
fall back to the defaults merged in revalidate.ts (`force := false`,
`dedupingInterval := 2000`). The fetcher option is the environment and is
not part of the decision logic. -/
structure RevOptsP where
  force : Option Bool
  dedupingInterval : Option Nat

/-- Partial mutate options; absent fields fall back to the defaults merged
in mutate.ts (`revalidate := true`, default revalidate options). -/
structure MutOptsP where
  revalidate : Option Bool
  revalidateOptions : Option RevOptsP

/-- The value argument of `mutate`: a literal (possibly null / undefined),
an already wrapped CacheItem, or a function of the previous state. -/
inductive MutVal (D : Type) where
  | lit : Option D → MutVal D
  | wrapped : CacheItemObj D → MutVal D
  | fn : (Option D → Option D) → MutVal D

/-- The argument mutate passes to a function-valued mutation: the current
cached data when the key is present and not resolving, null otherwise. -/
def fnArg (k : String) (st : EngineState D E) : Option D :=
  match cacheGet k st with
  | none => none
  | some it =>
    match it.data with
    | .val x => x
    | .pending _ => none

/-- The fetch decision of revalidate.ts:
`force || !cache.has(key) || (cache.has(key) && cache.get(key).hasExpired())`. -/
def shouldFetchB (k : String) (o : RevOptsP) (now : Nat) (st : EngineState D E) :
    Bool :=
  o.force.getD false || !(cacheHas k st) ||
    (cacheHas k st &&
      (match cacheGet k st with
       | none => false
       | some it => hasExpiredB now it))

/-- A call into the engine: mutate or revalidate, with its arguments. -/
inductive EngineCall (D : Type) where
  | mut : String → MutVal D → MutOptsP → EngineCall D
  | rev : String → RevOptsP → EngineCall D

/-- The value-resolution block of mutate.ts: a function value is applied to
the current non-pending cached value (null otherwise), a non-CacheItem
value is wrapped in a fresh CacheItem with `expiresAt := null`, and a
wrapped CacheItem is stored as-is. -/
def mutObj (k : String) (v : MutVal D) (st : EngineState D E) :
    CacheItemObj D :=
  match v with
  | .lit x => ⟨.val x, none⟩
  | .wrapped w => w
  | .fn f => ⟨.val (f (fnArg k st)), none⟩

/-- Fuel-indexed interpreter of the mutually recursive pair
`mutate` / `revalidate`:

  * `.rev`: no-op on a falsy key; otherwise, when the fetch decision
    holds, call `requestData` and hand the pending promise to mutate,
    wrapped in a fresh CacheItem expiring at `now + dedupingInterval`,
    always with `revalidate := false`; otherwise do nothing at all.
  * `.mut`: no-op on a falsy key; otherwise resolve the value (a function
    sees `fnArg`), wrap a non-CacheItem value in a fresh CacheItem with
    `expiresAt := null`, `cache.set` it, and finally call revalidate on
    the same key when the `revalidate` option (default true) holds.

Exhausted fuel only sets the `fuelOut` marker; the theorems show fuel 3 is
always enough, which is the termination claim. -/
def stepF : Nat → EngineCall D → Nat → EngineState D E → EngineState D E
  | 0, _, _, st => { st with fuelOut := true }
  | fuel + 1, .rev k o, now, st =>
    if k = "" then st
    else
      if shouldFetchB k o now st then
        let r := requestDataM k st
        stepF fuel
          (.mut k (.wrapped ⟨.pending r.1, some (now + o.dedupingInterval.getD 2000)⟩)
            ⟨some false, none⟩) now r.2
      else st
  | fuel + 1, .mut k v o, now, st =>
    if k = "" then st
    else
      let a := allocItem (mutObj k v st) st
      let st2 := cacheSet k a.1 a.2
      if o.revalidate.getD true then
        stepF fuel (.rev k (o.revalidateOptions.getD ⟨none, none⟩)) now st2
      else st2

/-- `mutate(key, value, options)`: fuel 3 covers the whole call chain. -/
def mutateM (k : String) (v : MutVal D) (o : MutOptsP) (now : Nat)
    (st : EngineState D E) : EngineState D E :=
  stepF 3 (.mut k v o) now st

/-- `revalidate(key, options)`: fuel 2 covers the whole call chain. -/
def revalidateM (k : String) (o : RevOptsP) (now : Nat)
    (st : EngineState D E) : EngineState D E :=
  stepF 2 (.rev k o) now st

end VSWR

namespace VSWR

section Lemmas

variable {D E : Type}

theorem lookupA_insert_self {α β : Type} [DecidableEq α] (k : α) (v : β)
    (l : List (α × β)) : lookupA k (insertA k v l) = some v := by
  induction l with
  | nil => simp [insertA, eraseA, lookupA]
  | cons p t ih =>
    by_cases h : p.1 = k
    · simpa [insertA, eraseA, h] using ih
    · simpa [insertA, eraseA, lookupA, h] using ih

theorem lookupA_erase_self {α β : Type} [DecidableEq α] (k : α)
    (l : List (α × β)) : lookupA k (eraseA k l) = none := by
  induction l with
  | nil => simp [eraseA, lookupA]
  | cons p t ih =>
    by_cases h : p.1 = k
    · simpa [eraseA, h] using ih
    · simpa [eraseA, lookupA, h] using ih

theorem contsFor_append (pid : PromId) (l m : List (PromId × String × ItemId)) :
    contsFor pid (l ++ m) = contsFor pid l ++ contsFor pid m := by
  induction l with
  | nil => simp [contsFor]
  | cons c t ih =>
    by_cases h : c.1 = pid
    · simp [contsFor, h, ih]
    · simp [contsFor, h, ih]

theorem contsNotFor_append (pid : PromId) (l m : List (PromId × String × ItemId)) :
    contsNotFor pid (l ++ m) = contsNotFor pid l ++ contsNotFor pid m := by
  induction l with
  | nil => simp [contsNotFor]
  | cons c t ih =>
    by_cases h : c.1 = pid
    · simp [contsNotFor, h, ih]
    · simp [contsNotFor, h, ih]

theorem contsFor_eq_nil (pid : PromId) (l : List (PromId × String × ItemId))
    (h : ∀ c ∈ l, ¬ c.1 = pid) : contsFor pid l = [] := by
  induction l with
  | nil => simp [contsFor]
  | cons c t ih =>
    have hc : ¬ c.1 = pid := h c (List.mem_cons_self c t)
    simp only [contsFor, if_neg hc]
    exact ih (fun x hx => h x (List.mem_cons_of_mem c hx))

theorem contsNotFor_eq_self (pid : PromId) (l : List (PromId × String × ItemId))
    (h : ∀ c ∈ l, ¬ c.1 = pid) : contsNotFor pid l = l := by
  induction l with
  | nil => simp [contsNotFor]
  | cons c t ih =>
    have hc : ¬ c.1 = pid := h c (List.mem_cons_self c t)
    simp only [contsNotFor, if_neg hc]
    rw [ih (fun x hx => h x (List.mem_cons_of_mem c hx))]

/-- Setting a fresh item whose data is a pending promise: the store maps the
key to the fresh id, the object sits on the heap, and a continuation on the
promise is registered; nothing is dispatched. -/
theorem setNew_pending (k : String) (pid : PromId) (e : Option Nat)
    (st : EngineState D E) :
    setNew k ⟨.pending pid, e⟩ st =
      { st with
        store := insertA k st.nextItem st.store
        heap := insertA st.nextItem ⟨.pending pid, e⟩ st.heap
        nextItem := st.nextItem + 1
        conts := st.conts ++ [(pid, k, st.nextItem)] } := by
  simp [setNew, allocItem, cacheSet, cacheResolve, lookupA_insert_self]

/-- Setting a fresh item whose data is a plain value: the store maps the key
to the fresh id, the object sits on the heap, and the resolution callback is
queued as a microtask; nothing is dispatched yet. -/
theorem setNew_val (k : String) (v : Option D) (e : Option Nat)
    (st : EngineState D E) :
    setNew k ⟨.val v, e⟩ st =
      { st with
        store := insertA k st.nextItem st.store
        heap := insertA st.nextItem ⟨.val v, e⟩ st.heap
        nextItem := st.nextItem + 1
        tasks := st.tasks ++ [(k, st.nextItem, v)] } := by
  simp [setNew, allocItem, cacheSet, cacheResolve, lookupA_insert_self]

/-- A mutate call with `revalidate := false` and a literal value reduces to
a single `cache.set` of a fresh unexpiring item; no revalidation happens,
whatever the fuel. -/
theorem stepF_mut_off_lit (fuel : Nat) (k : String) (x : Option D)
    (ro : Option RevOptsP) (now : Nat) (st : EngineState D E) (hk : ¬ k = "") :
    stepF (fuel + 1) (.mut k (.lit x) ⟨some false, ro⟩) now st =
      setNew k ⟨.val x, none⟩ st := by
  simp [stepF, hk, setNew, mutObj]

/-- A mutate call with `revalidate := false` and a wrapped CacheItem stores
that item as-is; no revalidation happens, whatever the fuel. -/
theorem stepF_mut_off_wrapped (fuel : Nat) (k : String) (w : CacheItemObj D)
    (ro : Option RevOptsP) (now : Nat) (st : EngineState D E) (hk : ¬ k = "") :
    stepF (fuel + 1) (.mut k (.wrapped w) ⟨some false, ro⟩) now st =
      setNew k w st := by
  simp [stepF, hk, setNew, mutObj]

/-- A mutate call with `revalidate := false` and a function value stores the
function's synchronous result applied to the current non-pending cached
value (null when absent or pending); no revalidation happens. -/
theorem stepF_mut_off_fn (fuel : Nat) (k : String) (f : Option D → Option D)
    (ro : Option RevOptsP) (now : Nat) (st : EngineState D E) (hk : ¬ k = "") :
    stepF (fuel + 1) (.mut k (.fn f) ⟨some false, ro⟩) now st =
      setNew k ⟨.val (f (fnArg k st)), none⟩ st := by
  simp [stepF, hk, setNew, mutObj]

/-- When the fetch decision is negative, revalidate does nothing at all: no
fetch, no cache write, no dispatch — the state is untouched. -/
theorem revalidateM_skip (k : String) (o : RevOptsP) (now : Nat)
    (st : EngineState D E) (hc : shouldFetchB k o now st = false) :
    revalidateM k o now st = st := by
  by_cases hk : k = ""
  · simp [revalidateM, stepF, hk]
  · simp [revalidateM, stepF, hk, hc]

/-- When the fetch decision is positive, revalidate invokes the fetcher once
and stores the pending requestData promise wrapped in a fresh CacheItem
expiring at `now + dedupingInterval`, through mutate with
`revalidate := false`. -/
theorem revalidateM_fetch (k : String) (o : RevOptsP) (now : Nat)
    (st : EngineState D E) (hk : ¬ k = "")
    (hc : shouldFetchB k o now st = true) :
    revalidateM k o now st =
      setNew k ⟨.pending st.nextProm, some (now + o.dedupingInterval.getD 2000)⟩
        { st with
          nextProm := st.nextProm + 1
          fetchCount := st.fetchCount + 1
          fetchKeys := insertA st.nextProm k st.fetchKeys } := by
  simp [revalidateM, stepF, hk, hc, requestDataM, setNew, mutObj]

/-- Settling a promise whose only registered continuation is the given one
removes that continuation and queues exactly one microtask with the settled
value. -/
theorem settleProm_last (pid : PromId) (v : Option D) (k : String)
    (iid : ItemId) (st : EngineState D E) (l : List (PromId × String × ItemId))
    (hc : st.conts = l ++ [(pid, k, iid)]) (hl : ∀ c ∈ l, ¬ c.1 = pid) :
    settleProm pid v st =
      { st with conts := l, tasks := st.tasks ++ [(k, iid, v)] } := by
  simp [settleProm, hc, contsFor_append, contsNotFor_append,
    contsFor_eq_nil pid l hl, contsNotFor_eq_self pid l hl, contsFor, contsNotFor]

end Lemmas

end VSWR

namespace VSWR

section MoreLemmas

variable {D E : Type}

theorem lookupA_erase_ne {α β : Type} [DecidableEq α] (k k1 : α)
    (l : List (α × β)) (h : ¬ k1 = k) :
    lookupA k1 (eraseA k l) = lookupA k1 l := by
  have hko : ¬ k = k1 := fun hh => h hh.symm
  induction l with
  | nil => simp [eraseA]
  | cons p t ih =>
    by_cases hp : p.1 = k
    · simp [eraseA, hp, lookupA, hko, ih]
    · by_cases hq : p.1 = k1
      · simp [eraseA, hp, lookupA, hq, h]
      · simp [eraseA, hp, lookupA, hq, ih]

theorem lookupA_insert_ne {α β : Type} [DecidableEq α] (k k1 : α) (v : β)
    (l : List (α × β)) (h : ¬ k1 = k) :
    lookupA k1 (insertA k v l) = lookupA k1 l := by
  have hko : ¬ k = k1 := fun hh => h hh.symm
  unfold insertA
  induction l with
  | nil => simp [eraseA, lookupA, hko]
  | cons p t ih =>
    by_cases hp : p.1 = k
    · simp [eraseA, hp, lookupA, hko, ih]
    · by_cases hq : p.1 = k1
      · simp [eraseA, hp, lookupA, hq, h]
      · simp [eraseA, hp, lookupA, hq, ih]

theorem setNew_fuelOut (k : String) (obj : CacheItemObj D)
    (st : EngineState D E) : (setNew k obj st).fuelOut = st.fuelOut := by
  rcases obj with ⟨d, e⟩
  cases d with
  | val v => rw [setNew_val]
  | pending p => rw [setNew_pending]

theorem setNew_fetchCount (k : String) (obj : CacheItemObj D)
    (st : EngineState D E) : (setNew k obj st).fetchCount = st.fetchCount := by
  rcases obj with ⟨d, e⟩
  cases d with
  | val v => rw [setNew_val]
  | pending p => rw [setNew_pending]

theorem stepF2_rev_fuelOut (k : String) (o : RevOptsP) (now : Nat)
    (st : EngineState D E) :
    (stepF 2 (.rev k o) now st).fuelOut = st.fuelOut := by
  by_cases hk : k = ""
  · simp [stepF, hk]
  · by_cases hc : shouldFetchB k o now st = true
    · have := revalidateM_fetch k o now st hk hc
      rw [show stepF 2 (EngineCall.rev k o) now st = revalidateM k o now st from rfl,
        this, setNew_fuelOut]
    · rw [show stepF 2 (EngineCall.rev k o) now st = revalidateM k o now st from rfl,
        revalidateM_skip k o now st (by simpa using hc)]

/-- Unfolding one mutate layer: mutate stores the resolved value and then,
when its `revalidate` option (default true) holds, enters revalidate with
one unit of fuel less. -/
theorem stepF_mut_unfold (fuel : Nat) (k : String) (v : MutVal D)
    (o : MutOptsP) (now : Nat) (st : EngineState D E) (hk : ¬ k = "") :
    stepF (fuel + 1) (.mut k v o) now st =
      if o.revalidate.getD true then
        stepF fuel (.rev k (o.revalidateOptions.getD ⟨none, none⟩)) now
          (setNew k (mutObj k v st) st)
      else setNew k (mutObj k v st) st := by
  simp [stepF, hk, setNew]

end MoreLemmas

/-- Claim C1: a `mutate(k, v, ...)` call — in particular with
`revalidate: true` — always completes in finitely many steps: fuel 3 is
enough for the whole mutate / revalidate chain (the interpreter's result is
the same for every larger fuel, and the fuel-exhaustion marker is never
set), because the internal revalidate either does nothing or re-enters
mutate exactly once, always with `revalidate := some false`, so the
mutate / revalidate pair never oscillates. -/
theorem claim1_mutate_terminates :
    (∀ (D E : Type) (n : Nat) (k : String) (v : MutVal D) (o : MutOptsP)
       (now : Nat) (st : EngineState D E),
       stepF (n + 3) (.mut k v o) now st = stepF 3 (.mut k v o) now st) ∧
    (∀ (D E : Type) (k : String) (v : MutVal D) (o : MutOptsP) (now : Nat)
       (st : EngineState D E),
       (stepF 3 (.mut k v o) now st).fuelOut = st.fuelOut) ∧
    (∀ (D E : Type) (fuel : Nat) (k : String) (o : RevOptsP) (now : Nat)
       (st : EngineState D E),
       stepF (fuel + 1) (.rev k o) now st = st ∨
       ∃ (v2 : MutVal D) (st2 : EngineState D E),
         stepF (fuel + 1) (.rev k o) now st =
           stepF fuel (.mut k v2 ⟨some false, none⟩) now st2) := by
  refine ⟨?_, ?_, ?_⟩
  · intro D E n k v o now st
    simp [stepF]
  · intro D E k v o now st
    by_cases hk : k = ""
    · simp [stepF, hk]
    · rw [show (3 : Nat) = 2 + 1 from rfl, stepF_mut_unfold 2 k v o now st hk]
      by_cases hr : o.revalidate.getD true
      · rw [if_pos hr, stepF2_rev_fuelOut, setNew_fuelOut]
      · rw [if_neg hr, setNew_fuelOut]
  · intro D E fuel k o now st
    by_cases hk : k = ""
    · left
      simp [stepF, hk]
    · by_cases hc : shouldFetchB k o now st = true
      · right
        refine ⟨.wrapped ⟨.pending st.nextProm, some (now + o.dedupingInterval.getD 2000)⟩,
          (requestDataM k st).2, ?_⟩
        simp [stepF, hk, hc, requestDataM]
      · left
        simp [stepF, hk, hc]

end VSWR

namespace VSWR

/-- Claim C2: storing a pending value under a key via `cache.set` and
letting it settle to a defined value `d` dispatches exactly one broadcast
carrying `d` on that key — delivered once to every handler subscribed to
the key — and afterwards the stored entry for the key is the very same
CacheItem object (same id, same expiration) with its data replaced in
place by `d`. -/
theorem claim2_resolution_exactly_once (D E : Type) (k : String) (d : D)
    (pid : PromId) (e : Option Nat) (st : EngineState D E)
    (htasks : st.tasks = [])
    (hfresh : ∀ c ∈ st.conts, ¬ c.1 = pid) :
    lookupA k (drain (settleProm pid (some d)
        (setNew k ⟨.pending pid, e⟩ st))).store = some st.nextItem ∧
    lookupA st.nextItem (drain (settleProm pid (some d)
        (setNew k ⟨.pending pid, e⟩ st))).heap = some ⟨.val (some d), e⟩ ∧
    (drain (settleProm pid (some d) (setNew k ⟨.pending pid, e⟩ st))).dispatches
        = st.dispatches ++ [(k, some d)] ∧
    (drain (settleProm pid (some d) (setNew k ⟨.pending pid, e⟩ st))).received
        = st.received ++ (subsOf k st.subs).map (fun h => (h, k, some d)) := by
  rw [setNew_pending]
  rw [settleProm_last pid (some d) k st.nextItem _ st.conts rfl hfresh]
  simp [drain, htasks, runTasks, runTask, lookupA_insert_self, cacheBroadcast]

/-- Witness for claim C2 at a concrete run: one prior subscriber, a pending
value settling to 42. -/
theorem claim2_witness :
    lookupA "k" (drain (settleProm 0 (some 42)
        (setNew "k" ⟨.pending 0, none⟩
          (cacheSubscribe "k" 1 (emptyState Nat Nat))))).store = some 0 ∧
    lookupA 0 (drain (settleProm 0 (some 42)
        (setNew "k" ⟨.pending 0, none⟩
          (cacheSubscribe "k" 1 (emptyState Nat Nat))))).heap
        = some ⟨.val (some 42), none⟩ ∧
    (drain (settleProm 0 (some 42) (setNew "k" ⟨.pending 0, none⟩
        (cacheSubscribe "k" 1 (emptyState Nat Nat))))).dispatches
        = [("k", some 42)] ∧
    (drain (settleProm 0 (some 42) (setNew "k" ⟨.pending 0, none⟩
        (cacheSubscribe "k" 1 (emptyState Nat Nat))))).received
        = [(1, "k", some 42)] := by
  exact claim2_resolution_exactly_once Nat Nat "k" 42 0 none
    (cacheSubscribe "k" 1 (emptyState Nat Nat)) rfl (by decide)

/-- Claim C5: a pending value set for a key that settles to undefined (or
null) leaves the key absent from the store, and no broadcast is dispatched
and nothing is delivered to the key's subscribers. -/
theorem claim5_empty_settlement_removes (D E : Type) (k : String)
    (pid : PromId) (e : Option Nat) (st : EngineState D E)
    (htasks : st.tasks = [])
    (hfresh : ∀ c ∈ st.conts, ¬ c.1 = pid) :
    cacheHas k (drain (settleProm pid none (setNew k ⟨.pending pid, e⟩ st)))
        = false ∧
    (drain (settleProm pid none (setNew k ⟨.pending pid, e⟩ st))).dispatches
        = st.dispatches ∧
    (drain (settleProm pid none (setNew k ⟨.pending pid, e⟩ st))).received
        = st.received := by
  rw [setNew_pending]
  rw [settleProm_last pid none k st.nextItem _ st.conts rfl hfresh]
  simp [drain, htasks, runTasks, runTask, cacheRemove, cacheHas,
    lookupA_erase_self]

/-- Witness for claim C5 at a concrete run: a subscriber is present, the
pending value settles to undefined, the key disappears silently. -/
theorem claim5_witness :
    cacheHas "k" (drain (settleProm 0 none (setNew "k" ⟨.pending 0, none⟩
        (cacheSubscribe "k" 1 (emptyState Nat Nat))))) = false ∧
    (drain (settleProm 0 none (setNew "k" ⟨.pending 0, none⟩
        (cacheSubscribe "k" 1 (emptyState Nat Nat))))).dispatches = [] ∧
    (drain (settleProm 0 none (setNew "k" ⟨.pending 0, none⟩
        (cacheSubscribe "k" 1 (emptyState Nat Nat))))).received = [] := by
  exact claim5_empty_settlement_removes Nat Nat "k" 0 none
    (cacheSubscribe "k" 1 (emptyState Nat Nat)) rfl (by decide)

/-- Claim C10: mutating a present key to undefined or null (both modelled
by `.lit none`) with `revalidate := false` removes the key from the store
once the stored item's data settles (the resolution microtask runs), and no
data broadcast is dispatched or delivered. -/
theorem claim10_mutate_empty_removes (D E : Type) (k : String)
    (ro : Option RevOptsP) (now : Nat) (st : EngineState D E)
    (hk : ¬ k = "") (htasks : st.tasks = [])
    (_hpresent : cacheHas k st = true) :
    cacheHas k (drain (mutateM k (.lit none) ⟨some false, ro⟩ now st))
        = false ∧
    (drain (mutateM k (.lit none) ⟨some false, ro⟩ now st)).dispatches
        = st.dispatches ∧
    (drain (mutateM k (.lit none) ⟨some false, ro⟩ now st)).received
        = st.received := by
  rw [show mutateM k (.lit none) ⟨some false, ro⟩ now st
      = stepF (2 + 1) (.mut k (.lit none) ⟨some false, ro⟩) now st from rfl]
  rw [stepF_mut_off_lit 2 k none ro now st hk, setNew_val]
  simp [drain, htasks, runTasks, runTask, cacheRemove, cacheHas,
    lookupA_erase_self]

/-- Witness for claim C10 at a concrete run: key holding 3, subscriber
present, mutate to undefined with revalidation disabled. -/
theorem claim10_witness :
    cacheHas "k" (drain (mutateM "k" (.lit none) ⟨some false, none⟩ 0
        { cacheSubscribe "k" 1 (setNew "k" ⟨.val (some 3), none⟩
            (emptyState Nat Nat)) with tasks := [] })) = false ∧
    (drain (mutateM "k" (.lit none) ⟨some false, none⟩ 0
        { cacheSubscribe "k" 1 (setNew "k" ⟨.val (some 3), none⟩
            (emptyState Nat Nat)) with tasks := [] })).dispatches = [] ∧
    (drain (mutateM "k" (.lit none) ⟨some false, none⟩ 0
        { cacheSubscribe "k" 1 (setNew "k" ⟨.val (some 3), none⟩
            (emptyState Nat Nat)) with tasks := [] })).received = [] := by
  exact claim10_mutate_empty_removes Nat Nat "k" none 0
    { cacheSubscribe "k" 1 (setNew "k" ⟨.val (some 3), none⟩
        (emptyState Nat Nat)) with tasks := [] } (by decide) rfl (by decide)

end VSWR

namespace VSWR

section DecisionRule

variable {D E : Type}

/-- The code's fetch decision coincides with the spec's decision rule:
fetch iff forced, or no entry, or the existing entry's expiration is null
or strictly in the past. -/
theorem shouldFetchB_iff (k : String) (o : RevOptsP) (now : Nat)
    (st : EngineState D E)
    (hwf : ∀ i, lookupA k st.store = some i →
      ∃ it, lookupA i st.heap = some it) :
    shouldFetchB k o now st = true ↔
      (o.force.getD false = true ∨ lookupA k st.store = none ∨
        ∃ i it, lookupA k st.store = some i ∧ lookupA i st.heap = some it ∧
          (it.expiresAt = none ∨ ∃ t, it.expiresAt = some t ∧ t < now)) := by
  rcases hs : lookupA k st.store with _ | i
  · constructor
    · intro _
      exact Or.inr (Or.inl rfl)
    · intro _
      simp [shouldFetchB, cacheHas, hs]
  · obtain ⟨it, hit⟩ := hwf i hs
    rcases he : it.expiresAt with _ | t
    · constructor
      · intro _
        exact Or.inr (Or.inr ⟨i, it, rfl, hit, Or.inl he⟩)
      · intro _
        simp [shouldFetchB, cacheHas, cacheGet, hs, hit, hasExpiredB, he]
    · constructor
      · intro hL
        have hL1 : o.force.getD false = true ∨ t < now := by
          simpa [shouldFetchB, cacheHas, cacheGet, hs, hit, hasExpiredB, he]
            using hL
        rcases hL1 with hf | hlt
        · exact Or.inl hf
        · exact Or.inr (Or.inr ⟨i, it, rfl, hit, Or.inr ⟨t, he, hlt⟩⟩)
      · intro hR
        rcases hR with hf | hnone | ⟨i1, it1, hs1, hit1, hexp⟩
        · simp [shouldFetchB, hf]
        · cases hnone
        · injection hs1 with hi
          subst hi
          rw [hit] at hit1
          injection hit1 with hiti
          subst hiti
          rcases hexp with hen | ⟨t1, hte, htlt⟩
          · rw [he] at hen
            cases hen
          · rw [he] at hte
            injection hte with htt
            subst htt
            simp [shouldFetchB, cacheHas, cacheGet, hs, hit, hasExpiredB, he, htlt]

end DecisionRule

/-- Claim C3: with the default force (false) and the default deduping
interval (2000 ms), two revalidations of the same key within 2000 ms — the
second issued while the first call's fetch is still pending — invoke the
fetcher exactly once: the first call stores a pending entry expiring at
`now + 2000`, so the second call finds an unexpired entry and does nothing
whatsoever. -/
theorem claim3_dedup (D E : Type) (k : String) (o : RevOptsP) (t1 t2 : Nat)
    (st : EngineState D E) (hk : ¬ k = "")
    (hforce : o.force.getD false = false)
    (hded : o.dedupingInterval.getD 2000 = 2000)
    (habsent : cacheHas k st = false)
    (ht : t2 ≤ t1 + 2000) :
    revalidateM k o t2 (revalidateM k o t1 st) = revalidateM k o t1 st ∧
    (revalidateM k o t1 st).fetchCount = st.fetchCount + 1 := by
  have hc1 : shouldFetchB k o t1 st = true := by
    simp [shouldFetchB, habsent]
  rw [revalidateM_fetch k o t1 st hk hc1, hded, setNew_pending]
  constructor
  · apply revalidateM_skip
    have hnl : ¬ (t1 + 2000 < t2) := Nat.not_lt.mpr ht
    simp [shouldFetchB, cacheHas, cacheGet, lookupA_insert_self, hasExpiredB,
      hforce, hnl]
  · simp

/-- Witness for claim C3 at a concrete run: empty cache, first revalidation
at time 100, second at time 1100. -/
theorem claim3_witness :
    revalidateM "k" ⟨none, none⟩ 1100
        (revalidateM "k" ⟨none, none⟩ 100 (emptyState Nat Nat)) =
      revalidateM "k" ⟨none, none⟩ 100 (emptyState Nat Nat) ∧
    (revalidateM "k" ⟨none, none⟩ 100 (emptyState Nat Nat)).fetchCount = 1 := by
  exact claim3_dedup Nat Nat "k" ⟨none, none⟩ 100 1100 (emptyState Nat Nat)
    (by decide) rfl rfl rfl (by decide)

/-- Claim C4: for a defined key, revalidate invokes the fetcher if and only
if force holds, or the key has no cache entry, or the existing entry has a
null expiration or an expiration strictly in the past; and when no fetch is
issued the engine state is completely unchanged — no cache write, no
dispatch, nothing. -/
theorem claim4_decision_rule (D E : Type) (k : String) (o : RevOptsP)
    (now : Nat) (st : EngineState D E) (hk : ¬ k = "")
    (hwf : ∀ i, lookupA k st.store = some i →
      ∃ it, lookupA i st.heap = some it) :
    ((revalidateM k o now st).fetchCount = st.fetchCount + 1 ↔
      (o.force.getD false = true ∨ lookupA k st.store = none ∨
        ∃ i it, lookupA k st.store = some i ∧ lookupA i st.heap = some it ∧
          (it.expiresAt = none ∨ ∃ t, it.expiresAt = some t ∧ t < now))) ∧
    (¬ (o.force.getD false = true ∨ lookupA k st.store = none ∨
        ∃ i it, lookupA k st.store = some i ∧ lookupA i st.heap = some it ∧
          (it.expiresAt = none ∨ ∃ t, it.expiresAt = some t ∧ t < now)) →
      revalidateM k o now st = st) := by
  have hiff := shouldFetchB_iff k o now st hwf
  by_cases hc : shouldFetchB k o now st = true
  · have hR := hiff.mp hc
    refine ⟨⟨fun _ => hR, fun _ => ?_⟩, fun hnR => absurd hR hnR⟩
    rw [revalidateM_fetch k o now st hk hc, setNew_fetchCount]
  · have hcf : shouldFetchB k o now st = false := by
      simpa using hc
    have hnR : ¬ _ := fun hR => absurd (hiff.mpr hR) hc
    refine ⟨⟨fun hfc => ?_, fun hR => absurd hR hnR⟩,
      fun _ => revalidateM_skip k o now st hcf⟩
    rw [revalidateM_skip k o now st hcf] at hfc
    omega

/-- Witness for claim C4 at a concrete input: empty cache, so the decision
rule says fetch, and the fetch counter goes to one. -/
theorem claim4_witness :
    ((revalidateM "k" ⟨none, none⟩ 0 (emptyState Nat Nat)).fetchCount = 0 + 1 ↔
      ((⟨none, none⟩ : RevOptsP).force.getD false = true ∨
        lookupA "k" (emptyState Nat Nat).store = none ∨
        ∃ i it, lookupA "k" (emptyState Nat Nat).store = some i ∧
          lookupA i (emptyState Nat Nat).heap = some it ∧
          (it.expiresAt = none ∨ ∃ t, it.expiresAt = some t ∧ t < 0))) ∧
    (¬ ((⟨none, none⟩ : RevOptsP).force.getD false = true ∨
        lookupA "k" (emptyState Nat Nat).store = none ∨
        ∃ i it, lookupA "k" (emptyState Nat Nat).store = some i ∧
          lookupA i (emptyState Nat Nat).heap = some it ∧
          (it.expiresAt = none ∨ ∃ t, it.expiresAt = some t ∧ t < 0)) →
      revalidateM "k" ⟨none, none⟩ 0 (emptyState Nat Nat) =
        emptyState Nat Nat) := by
  exact claim4_decision_rule Nat Nat "k" ⟨none, none⟩ 0 (emptyState Nat Nat)
    (by decide) (fun i h => by simp [emptyState, lookupA] at h)

end VSWR

namespace VSWR

/-- Claim C6: when the fetcher behind a revalidation fetch rejects with
reason `e`, the requestData promise resolves to undefined (modelled by the
`none` settlement inside `settleFetchErr`), the reason is published on the
error channel under the fetched key, and once the settlement microtask has
run the cache entry for the key has been removed — not left pending — and
no data broadcast was dispatched or delivered. -/
theorem claim6_fetch_error (D E : Type) (k : String) (e : E) (o : RevOptsP)
    (now : Nat) (st : EngineState D E) (hk : ¬ k = "")
    (habsent : cacheHas k st = false) (htasks : st.tasks = [])
    (hfresh : ∀ c ∈ st.conts, ¬ c.1 = st.nextProm) :
    (drain (settleFetchErr st.nextProm e (revalidateM k o now st))).errors
        = st.errors ++ [(k, e)] ∧
    cacheHas k (drain (settleFetchErr st.nextProm e (revalidateM k o now st)))
        = false ∧
    (drain (settleFetchErr st.nextProm e (revalidateM k o now st))).dispatches
        = st.dispatches ∧
    (drain (settleFetchErr st.nextProm e (revalidateM k o now st))).received
        = st.received ∧
    (drain (settleFetchErr st.nextProm e (revalidateM k o now st))).conts
        = st.conts := by
  have hc : shouldFetchB k o now st = true := by
    simp [shouldFetchB, habsent]
  rw [revalidateM_fetch k o now st hk hc, setNew_pending]
  simp only [settleFetchErr, lookupA_insert_self]
  rw [settleProm_last st.nextProm none k st.nextItem _ st.conts rfl hfresh]
  simp [drain, htasks, runTasks, runTask, cacheRemove, cacheHas,
    lookupA_erase_self]

/-- Witness for claim C6 at a concrete run: empty cache, revalidation of
key k at time 0, fetcher rejecting with reason 77. -/
theorem claim6_witness :
    (drain (settleFetchErr 0 77
        (revalidateM "k" ⟨none, none⟩ 0 (emptyState Nat Nat)))).errors
        = [("k", 77)] ∧
    cacheHas "k" (drain (settleFetchErr 0 77
        (revalidateM "k" ⟨none, none⟩ 0 (emptyState Nat Nat)))) = false ∧
    (drain (settleFetchErr 0 77
        (revalidateM "k" ⟨none, none⟩ 0 (emptyState Nat Nat)))).dispatches = [] ∧
    (drain (settleFetchErr 0 77
        (revalidateM "k" ⟨none, none⟩ 0 (emptyState Nat Nat)))).received = [] ∧
    (drain (settleFetchErr 0 77
        (revalidateM "k" ⟨none, none⟩ 0 (emptyState Nat Nat)))).conts = [] := by
  exact claim6_fetch_error Nat Nat "k" 77 ⟨none, none⟩ 0 (emptyState Nat Nat)
    (by decide) rfl rfl (by decide)

/-- Claim C7 counterexample: with one subscriber of key k, immediately
after `mutate(k, 5, revalidate:false)` returns, nothing has been dispatched
and nothing has been delivered to the subscriber — the broadcast only
happens when the microtask queue is drained, after the mutate call returned
control. This refutes delivery being synchronous within the mutate call. -/
theorem claim7_counterexample :
    (mutateM "k" (.lit (some 5)) ⟨some false, none⟩ 0
        (cacheSubscribe "k" 1 (emptyState Nat Nat))).received = [] ∧
    (mutateM "k" (.lit (some 5)) ⟨some false, none⟩ 0
        (cacheSubscribe "k" 1 (emptyState Nat Nat))).dispatches = [] ∧
    subsOf "k" (cacheSubscribe "k" 1 (emptyState Nat Nat)).subs = [1] ∧
    (drain (mutateM "k" (.lit (some 5)) ⟨some false, none⟩ 0
        (cacheSubscribe "k" 1 (emptyState Nat Nat)))).received
      = [(1, "k", some 5)] := by
  decide

/-- Claim C7 as amended: when mutate settles a non-promise value, no
broadcast is dispatched or delivered before the mutate call returns; the
broadcast is dispatched by the resolution microtask scheduled by `set`, and
once the microtask queue is drained every then-current subscriber of the
key has received the value exactly once. -/
theorem claim7_amended (D E : Type) (k : String) (d : D)
    (ro : Option RevOptsP) (now : Nat) (st : EngineState D E)
    (hk : ¬ k = "") (htasks : st.tasks = []) :
    (mutateM k (.lit (some d)) ⟨some false, ro⟩ now st).received
        = st.received ∧
    (mutateM k (.lit (some d)) ⟨some false, ro⟩ now st).dispatches
        = st.dispatches ∧
    (drain (mutateM k (.lit (some d)) ⟨some false, ro⟩ now st)).dispatches
        = st.dispatches ++ [(k, some d)] ∧
    (drain (mutateM k (.lit (some d)) ⟨some false, ro⟩ now st)).received
        = st.received ++ (subsOf k st.subs).map (fun h => (h, k, some d)) := by
  rw [show mutateM k (.lit (some d)) ⟨some false, ro⟩ now st
      = stepF (2 + 1) (.mut k (.lit (some d)) ⟨some false, ro⟩) now st from rfl,
    stepF_mut_off_lit 2 k (some d) ro now st hk, setNew_val]
  simp [drain, htasks, runTasks, runTask, lookupA_insert_self, cacheBroadcast]

/-- Witness for the amended claim C7 at a concrete run: key a, value 9, one
subscriber. -/
theorem claim7_witness :
    (mutateM "a" (.lit (some 9)) ⟨some false, none⟩ 0
        (cacheSubscribe "a" 2 (emptyState Nat Nat))).received = [] ∧
    (mutateM "a" (.lit (some 9)) ⟨some false, none⟩ 0
        (cacheSubscribe "a" 2 (emptyState Nat Nat))).dispatches = [] ∧
    (drain (mutateM "a" (.lit (some 9)) ⟨some false, none⟩ 0
        (cacheSubscribe "a" 2 (emptyState Nat Nat)))).dispatches
      = [("a", some 9)] ∧
    (drain (mutateM "a" (.lit (some 9)) ⟨some false, none⟩ 0
        (cacheSubscribe "a" 2 (emptyState Nat Nat)))).received
      = [(2, "a", some 9)] := by
  exact claim7_amended Nat Nat "a" 9 none 0
    (cacheSubscribe "a" 2 (emptyState Nat Nat)) (by decide) rfl

/-- The function-valued mutation used in the C8 runs: previous state plus
one (0 when the previous state is null). -/
def bump (s : Option Nat) : Option Nat :=
  some (s.getD 0 + 1)

/-- Claim C8 counterexample: with the default options (`revalidate: true`),
`mutate(k, 5)` immediately triggers a revalidation that replaces the entry
with a pending fetch item, so the following `mutate(k, prev => prev + 1)`
finds the entry resolving, receives null rather than 5 (its result item
holds 1, not 6), and the final stored entry is again a pending fetch item —
`get(k)` is not 6. -/
theorem claim8_counterexample :
    cacheGet "k" (mutateM "k" (.fn bump) ⟨none, none⟩ 0
        (mutateM "k" (.lit (some 5)) ⟨none, none⟩ 0 (emptyState Nat Nat)))
      = some ⟨.pending 1, some 2000⟩ ∧
    lookupA 2 (mutateM "k" (.fn bump) ⟨none, none⟩ 0
        (mutateM "k" (.lit (some 5)) ⟨none, none⟩ 0 (emptyState Nat Nat))).heap
      = some ⟨.val (some 1), none⟩ := by
  decide

/-- Claim C8 as amended: with revalidation disabled on the mutate calls,
`mutate(k, 5)` then `mutate(k, prev => prev + 1)` stores 6 under k; and in
general a function-valued mutation is invoked with the currently cached
value when an entry is present and not pending (null otherwise), its
synchronous result becoming the data of the freshly stored item. -/
theorem claim8_amended :
    (cacheGet "k" (mutateM "k" (.fn bump) ⟨some false, none⟩ 0
        (mutateM "k" (.lit (some 5)) ⟨some false, none⟩ 0
          (emptyState Nat Nat)))
      = some ⟨.val (some 6), none⟩) ∧
    (∀ (D E : Type) (k : String) (f : Option D → Option D)
       (ro : Option RevOptsP) (now : Nat) (st : EngineState D E),
       ¬ k = "" →
       lookupA k (mutateM k (.fn f) ⟨some false, ro⟩ now st).store
           = some st.nextItem ∧
       lookupA st.nextItem (mutateM k (.fn f) ⟨some false, ro⟩ now st).heap
           = some ⟨.val (f (fnArg k st)), none⟩) := by
  constructor
  · decide
  · intro D E k f ro now st hk
    rw [show mutateM k (.fn f) ⟨some false, ro⟩ now st
        = stepF (2 + 1) (.mut k (.fn f) ⟨some false, ro⟩) now st from rfl,
      stepF_mut_off_fn 2 k f ro now st hk, setNew_val]
    simp [lookupA_insert_self]

/-- Witness for the amended claim C8 at a concrete input: empty cache, so
the function receives null. -/
theorem claim8_witness :
    lookupA "a" (mutateM "a" (.fn bump) ⟨some false, none⟩ 0
        (emptyState Nat Nat)).store = some 0 ∧
    lookupA 0 (mutateM "a" (.fn bump) ⟨some false, none⟩ 0
        (emptyState Nat Nat)).heap
      = some ⟨.val (bump (fnArg "a" (emptyState Nat Nat))), none⟩ := by
  exact claim8_amended.2 Nat Nat "a" bump none 0 (emptyState Nat Nat)
    (by decide)

/-- Claim C9 counterexample: key k holds a pending fetch; `mutate(k, 7)`
replaces the entry; the old fetch then settles to 42. Afterwards the store
entry for k (and hence get(k)) still holds the mutated 7 — the defined late
settlement did not overwrite the store entry; it only updated the stale
CacheItem object (id 0) it was attached to, and broadcast 42. -/
theorem claim9_counterexample :
    cacheGet "k" (drain (settleProm 0 (some 42)
        (mutateM "k" (.lit (some 7)) ⟨some false, none⟩ 0
          (setNew "k" ⟨.pending 0, none⟩ (emptyState Nat Nat)))))
      = some ⟨.val (some 7), none⟩ ∧
    lookupA 0 (drain (settleProm 0 (some 42)
        (mutateM "k" (.lit (some 7)) ⟨some false, none⟩ 0
          (setNew "k" ⟨.pending 0, none⟩ (emptyState Nat Nat))))).heap
      = some ⟨.val (some 42), none⟩ ∧
    (drain (settleProm 0 (some 42)
        (mutateM "k" (.lit (some 7)) ⟨some false, none⟩ 0
          (setNew "k" ⟨.pending 0, none⟩ (emptyState Nat Nat))))).dispatches
      = [("k", some 7), ("k", some 42)] := by
  decide

/-- Claim C9 as amended: a late settlement of a superseded fetch is keyed
differently in its two branches. A defined settled value does NOT overwrite
the newer store entry: it replaces the data of the stale CacheItem object
it was attached to and broadcasts the stale value under the key, while
`get(k)` keeps the newer mutated value. An undefined settlement, however,
removes the key — deleting the newer entry — without broadcasting. -/
theorem claim9_amended (D E : Type) (k : String) (d : D) (pid : PromId)
    (iidOld iidNew : ItemId) (itOld itNew : CacheItemObj D)
    (st : EngineState D E)
    (htasks : st.tasks = [])
    (hconts : st.conts = [(pid, k, iidOld)])
    (hstore : lookupA k st.store = some iidNew)
    (hne : ¬ iidOld = iidNew)
    (hOld : lookupA iidOld st.heap = some itOld)
    (hNew : lookupA iidNew st.heap = some itNew) :
    (lookupA k (drain (settleProm pid (some d) st)).store = some iidNew ∧
     lookupA iidNew (drain (settleProm pid (some d) st)).heap = some itNew ∧
     lookupA iidOld (drain (settleProm pid (some d) st)).heap
        = some ⟨.val (some d), itOld.expiresAt⟩ ∧
     (drain (settleProm pid (some d) st)).dispatches
        = st.dispatches ++ [(k, some d)]) ∧
    (cacheHas k (drain (settleProm pid none st)) = false ∧
     (drain (settleProm pid none st)).dispatches = st.dispatches) := by
  have hne1 : ¬ iidNew = iidOld := fun hh => hne hh.symm
  constructor
  · rw [settleProm_last pid (some d) k iidOld st []
      (by simpa using hconts) (by simp)]
    simp [drain, htasks, runTasks, runTask, hOld, cacheBroadcast,
      lookupA_insert_self, lookupA_insert_ne iidOld iidNew _ _ hne1,
      hstore, hNew]
  · rw [settleProm_last pid none k iidOld st []
      (by simpa using hconts) (by simp)]
    simp [drain, htasks, runTasks, runTask, cacheRemove, cacheHas,
      lookupA_erase_self]

/-- A concrete state for the C9 witness: key k maps to item 1 (the mutated
value 7), while the stale item 0 is still pending on promise 0, whose
continuation is registered. -/
def raceState : EngineState Nat Nat :=
  ⟨[("k", 1)], [(0, ⟨.pending 0, none⟩), (1, ⟨.val (some 7), none⟩)],
    2, 1, [(0, "k", 0)], [], [], [], [], [], [], 1, false⟩

/-- Witness for the amended claim C9 at the concrete race state. -/
theorem claim9_witness :
    (lookupA "k" (drain (settleProm 0 (some 42) raceState)).store = some 1 ∧
     lookupA 1 (drain (settleProm 0 (some 42) raceState)).heap
        = some ⟨.val (some 7), none⟩ ∧
     lookupA 0 (drain (settleProm 0 (some 42) raceState)).heap
        = some ⟨.val (some 42), none⟩ ∧
     (drain (settleProm 0 (some 42) raceState)).dispatches
        = [("k", some 42)]) ∧
    (cacheHas "k" (drain (settleProm 0 none raceState)) = false ∧
     (drain (settleProm 0 none raceState)).dispatches = []) := by
  exact claim9_amended Nat Nat "k" 42 0 0 1 ⟨.pending 0, none⟩
    ⟨.val (some 7), none⟩ raceState rfl rfl rfl (by decide) rfl rfl

end VSWR
